import Mathlib

/-!
Shallow embedding of the experience-replay DQN training code
(`RL/DeepQLearning/train.py`, `RL/DeepQLearning/model_dqn.py`,
`RL/DuelingDoubleDQN/model_dd_dqn.py`, `RL/DuelingDoubleDQN/main.py`).
Tensors are modelled as lists of rationals (exact arithmetic standing in for
the float arithmetic of the source), batches as lists of rows, and the
random draws of the source as explicit parameters.
-/

namespace TutorialTF

/-- `torch.max(q_values, dim=0)[0]`: maximum entry of a per-action value
vector (0 on the empty list, which the source never produces). -/
def listMax : List ℚ → ℚ
  | [] => 0
  | a :: t => t.foldl max a

/-- `torch.max(q_values, dim=0)[1]`: index of the (first) maximal entry of a
per-action value vector. -/
def argmaxIdx : List ℚ → ℕ
  | [] => 0
  | [_] => 0
  | a :: b :: t => if listMax (b :: t) > a then argmaxIdx (b :: t) + 1 else 0

/-- `torch.mean(advantage, dim=1)` on one row: arithmetic mean of a list. -/
def listMean (l : List ℚ) : ℚ := l.sum / l.length

/-- `float(done)` as stored in the replay memory (`train.py` line 88/154). -/
def floatOfDone (done : Bool) : ℚ := if done then 1 else 0

/-- `train.py` lines 167-168, one sample of the batch:
`q_value_next_max = t_network.forward(next_state).max(dim=1)[0]` followed by
`t_values = reward + discount_factor * ((1 - done) * q_value_next_max)`.
`next_q_values` is the Target Estimator's per-action output on `next_state`. -/
def t_values (discount_factor reward : ℚ) (done : Bool) (next_q_values : List ℚ) : ℚ :=
  reward + discount_factor * ((1 - floatOfDone done) * listMax next_q_values)

/-- The TD-target formula in the words of the spec:
`reward + discount_factor * (1 - done) * max_a TargetEstimator.predict(next_state)[a]`. -/
def td_target_spec (discount_factor reward : ℚ) (done : Bool) (next_q_values : List ℚ) : ℚ :=
  reward + discount_factor * (1 - floatOfDone done) * listMax next_q_values

/-- `model_dd_dqn.py` lines 120-129 (`DDDQN_Network.forward`), one row of the
batch: the conv trunk and the two fully-connected heads are opaque
collaborators (out of scope per the spec), so the row enters as the value
head's scalar output `value` and the advantage head's per-action output
`advantage`; the combination is
`q_values = value + (advantage - torch.mean(advantage, dim=1, keepdim=True))`. -/
def dddqn_forward (value : ℚ) (advantage : List ℚ) : List ℚ :=
  advantage.map (fun a => value + (a - listMean advantage))

/-- `model_dqn.py` lines 16-21 (`epsilon_greedy_policy.policy_fn`):
`A = ones(action_space) * epsilon / action_space` then
`A[best_action] += (1.0 - epsilon)` where
`best_action = torch.max(q_values, dim=0)[1]` and `q_values` is the network
output on the observation (the network itself is an opaque collaborator). -/
def dqn_policy_probs (action_space : ℕ) (epsilon : ℚ) (q_values : List ℚ) : List ℚ :=
  let A := List.replicate action_space (epsilon / action_space)
  A.set (argmaxIdx q_values) (epsilon / action_space + (1 - epsilon))

/-- `train.py` line 119: `action, epsilon = policy(state, GLOBAL_STEP)` — the
DQN training loop passes the raw global step counter as the `epsilon`
argument of `policy_fn`, so the epsilon value actually used at step `s`
is `s` itself. -/
def dqn_epsilon_used (global_step : ℕ) : ℚ := (global_step : ℚ)

/-- `model_dd_dqn.py` line 18:
`eps_threshold = eps_end + (eps_start - eps_end) * math.exp(-1. * steps_done * eps_decay)`. -/
noncomputable def eps_threshold (eps_end eps_start eps_decay : ℝ) (steps_done : ℕ) : ℝ :=
  eps_end + (eps_start - eps_end) * Real.exp (-1 * steps_done * eps_decay)

/-- `model_dd_dqn.py` lines 16-27 (`epsilon_greedy_policy.policy_fn`), with
the two random draws of the source made explicit: `sample` is the value of
`np.random.random()` and `randAction` the value of
`np.random.randint(low=0, high=len(actions))` (so `randAction < nActions`).
If `sample > eps_threshold` the greedy action `argmaxIdx q_values` is
returned, otherwise the random action. -/
def dd_policy_action (sample eps_thr : ℚ) (q_values : List ℚ) (randAction : ℕ) : ℕ :=
  if sample > eps_thr then argmaxIdx q_values else randAction

/-- The online (`q_network`) and target (`t_network`) estimators: two
independently owned parameter sets, modelling the two `nn.Module`s of
`train.py` / `main.py`. Parameters are modelled as a flat list of scalars. -/
structure DualNet where
  qParams : List ℚ
  tParams : List ℚ

/-- `t_network.load_state_dict(q_network.state_dict())`
(`train.py` line 140, `main.py` line 170): the target parameters become a
copy of the online parameters. -/
def sync_from (e : DualNet) : DualNet := { e with tParams := e.qParams }

/-- One gradient update applied to the online network
(`optimizer.zero_grad(); loss.backward(); optimizer.step()`,
`train.py` lines 172-176): the online parameters move by `-lr * g` where `g`
is the (clipped) gradient; the target parameters are not touched. -/
def gradUpdate (lr : ℚ) (g : List ℚ) (e : DualNet) : DualNet :=
  { e with qParams := List.zipWith (fun p gi => p - lr * gi) e.qParams g }

/-- `train.py` line 139: the synchronization trigger
`GLOBAL_STEP % args.update_target_estimator_every == 0`. -/
def syncTrigger (global_step update_every : ℕ) : Bool :=
  global_step % update_every == 0

/-- The runtime error raised when Python resolves a name that is bound
nowhere in the enclosing scopes. -/
inductive NameError where
  | i_type : NameError

/-- The module-level binding of the name `i_type` that
`DQN_Network.compute_action_pred` looks up: `model_dqn.py` imports only
`NetworkType` and `TENSOR_TYPE` and defines no `i_type`, so no binding
exists. -/
def i_type_binding : Option (List ℕ → List ℤ) := none

/-- The gather spelled out by `model_dqn.py` lines 98-99:
`mask_index = range(self.batch_size) * self.action_space + self.actions_pl`
over the row-major `[batch, action_space]` prediction matrix `pred`, then
`self.prediction.view(-1)[mask_index]` (`view(-1)` is `List.flatten`; the
batch size is the number of rows) — the value `compute_action_pred` would
return had `i_type` been bound. -/
def compute_action_pred_gather (action_space : ℕ) (pred : List (List ℚ))
    (actions : List ℕ) : List ℚ :=
  (List.range pred.length).map
    (fun i => pred.flatten.getD (i * action_space + actions.getD i 0) 0)

/-- `model_dqn.py` lines 89-100 (`DQN_Network.compute_action_pred`): the
method first evaluates `i_type(actions.tolist())` (line 96) and
`i_type(range(self.batch_size))` (line 98), so it resolves the name
`i_type` before producing anything; the name is unbound in the module, so
every call raises `NameError` and the gather of lines 98-99 is never
reached. -/
def compute_action_pred (action_space : ℕ) (pred : List (List ℚ))
    (actions : List ℕ) : Except NameError (List ℚ) :=
  match i_type_binding with
  | none => Except.error NameError.i_type
  | some _ => Except.ok (compute_action_pred_gather action_space pred actions)

/-- One-hot encoding of an action id over `n` actions, as produced for the
dueling variant's stored actions (spec section 4.1: "a batch of one-hot or
integer actions"). -/
def oneHot : ℕ → ℕ → List ℚ
  | 0, _ => []
  | Nat.succ n, 0 => 1 :: List.replicate n 0
  | Nat.succ n, Nat.succ k => 0 :: oneHot n k

/-- `model_dd_dqn.py` lines 131-140 (`DDDQN_Network.compute_q_value`):
`q_value = torch.sum(torch.mul(q_values, actions), dim=1)`, the row-wise
product-and-sum of the Q-value matrix with the action-mask matrix. -/
def compute_q_value (q_values actions : List (List ℚ)) : List ℚ :=
  (q_values.zip actions).map (fun p => (List.zipWith (fun a b => a * b) p.1 p.2).sum)

/-- `train.py` lines 109-111 (also 62-64, 90-92): at an episode start the
stacked-frame window is `torch.stack([state] * 4, dim=1)` — four copies of
the first preprocessed frame. Frames are opaque values of a type `F`. -/
def initStack {F : Type} (frame : F) : List F := List.replicate 4 frame

/-- `train.py` lines 120-122:
`next_state = torch.cat((state[:, 1:, :, :], next_state.unsqueeze(dim=0)), dim=1)` —
drop the oldest (first) frame of the window and append the new preprocessed
frame at the end. -/
def appendFrame {F : Type} (s : List F) (frame : F) : List F := s.drop 1 ++ [frame]

/-- The stacked-frame windows reachable by the training loop: an episode
start fills the window from one first frame, and every environment
interaction appends one new frame. -/
inductive StackReachable {F : Type} : List F → Prop
  | init (frame : F) : StackReachable (initStack frame)
  | step {s : List F} (frame : F) : StackReachable s → StackReachable (appendFrame s frame)

/-- `train.py` lines 65-95, the replay-memory initialization loop: one
environment interaction per iteration, and `GLOBAL_STEP += 1` (line 95) runs
on every iteration, also when `done` is true. -/
def initLoopStep (g : ℕ) (_done : Bool) : ℕ := g + 1

/-- `train.py` lines 118-193, one environment interaction of the episode
loop: `if done: break` (line 189) exits before `GLOBAL_STEP += 1`
(line 193), so the counter is incremented only when `done` is false. -/
def mainLoopStep (g : ℕ) (done : Bool) : ℕ := if done then g else g + 1

/-- The global step counter after a run that performs the interactions of
`initDones` in the initialization loop and then the interactions of
`mainDones` in the episode loop, starting from `GLOBAL_STEP = 0`
(`train.py` line 15). -/
def globalStepAfter (initDones mainDones : List Bool) : ℕ :=
  mainDones.foldl mainLoopStep (initDones.foldl initLoopStep 0)

/-- One stored transition (`train.py` line 32/88): `done` is stored as
`float(done)`. The stacked-frame states are opaque here. -/
structure Transition where
  state : List ℚ
  action : ℕ
  reward : ℚ
  next_state : List ℚ
  doneFlt : ℚ

/-- Modelled from the spec: `ExperienceBuffer.sample` lives in
`RL/DeepQLearning/helper.py`, which is not part of the sources; per the spec
it "returns `batch_size` Transitions drawn uniformly at random with
replacement from current contents" and "fails with `InsufficientDataError`
if current size < batch_size". The random draws enter as the index list
`picks` (one uniformly drawn index per requested sample). -/
def bufferSample (buf : List Transition) (picks : List ℕ) (batch_size : ℕ) :
    Except Unit (List Transition) :=
  if buf.length < batch_size then Except.error ()
  else Except.ok ((List.range batch_size).map
    (fun j => buf.getD (picks.getD j 0 % buf.length) ⟨[], 0, 0, [], 0⟩))

/-- `train.py` lines 161-168: the gradient-update phase of one loop
iteration samples a minibatch (line 162, with no exception handler) and
computes the TD targets; a sampling failure therefore propagates out of the
iteration. `nextQ` gives the target network's per-action output on a
next-state. -/
def updatePhase (buf : List Transition) (picks : List ℕ) (batch_size : ℕ)
    (discount_factor : ℚ) (nextQ : List ℚ → List ℚ) : Except Unit (List ℚ) :=
  match bufferSample buf picks batch_size with
  | Except.error e => Except.error e
  | Except.ok batch =>
      Except.ok (batch.map
        (fun tr => tr.reward + discount_factor * ((1 - tr.doneFlt) * listMax (nextQ tr.next_state))))

/-! ## Helper lemmas -/

theorem foldl_max_comm (t : List ℚ) : ∀ x y : ℚ, t.foldl max (max x y) = max x (t.foldl max y) := by
  induction t with
  | nil => intro x y; rfl
  | cons c t ih =>
    intro x y
    simp only [List.foldl_cons]
    rw [max_assoc, ih]

theorem listMax_cons₂ (a b : ℚ) (t : List ℚ) :
    listMax (a :: b :: t) = max a (listMax (b :: t)) := by
  simp only [listMax, List.foldl_cons]
  exact foldl_max_comm t a b

theorem getD_argmaxIdx : ∀ (l : List ℚ), l ≠ [] → l.getD (argmaxIdx l) 0 = listMax l
  | [], h => absurd rfl h
  | [_], _ => rfl
  | a :: b :: t, _ => by
    by_cases hgt : listMax (b :: t) > a
    · have ih := getD_argmaxIdx (b :: t) (by simp)
      simp only [argmaxIdx, if_pos hgt, List.getD_cons_succ]
      rw [listMax_cons₂, max_eq_right (le_of_lt hgt)]
      exact ih
    · simp only [argmaxIdx, if_neg hgt, List.getD_cons_zero]
      rw [listMax_cons₂, max_eq_left (not_lt.mp hgt)]

theorem argmaxIdx_lt_length : ∀ (l : List ℚ), l ≠ [] → argmaxIdx l < l.length
  | [], h => absurd rfl h
  | [_], _ => by simp [argmaxIdx]
  | a :: b :: t, _ => by
    by_cases hgt : listMax (b :: t) > a
    · have ih := argmaxIdx_lt_length (b :: t) (by simp)
      simp only [argmaxIdx, if_pos hgt, List.length_cons] at ih ⊢
      omega
    · simp [argmaxIdx, if_neg hgt]

theorem sum_set_rat (l : List ℚ) :
    ∀ (i : ℕ) (x : ℚ), i < l.length → (l.set i x).sum = l.sum - l.getD i 0 + x := by
  induction l with
  | nil => intro i x h; simp at h
  | cons a t ih =>
    intro i x h
    cases i with
    | zero =>
      simp only [List.set_cons_zero, List.sum_cons, List.getD_cons_zero]
      ring
    | succ n =>
      simp only [List.set_cons_succ, List.sum_cons, List.getD_cons_succ]
      rw [ih n x (by simpa using h)]
      ring

theorem getD_replicate_rat (x : ℚ) : ∀ (n i : ℕ), i < n → (List.replicate n x).getD i 0 = x := by
  intro n i h
  rw [List.getD_eq_getElem _ _ (by simpa using h), List.getElem_replicate]

theorem flatten_getD (A : ℕ) :
    ∀ (rows : List (List ℚ)) (i a : ℕ), (∀ r ∈ rows, r.length = A) →
      i < rows.length → a < A →
      rows.flatten.getD (i * A + a) 0 = (rows.getD i []).getD a 0 := by
  intro rows
  induction rows with
  | nil => intro i a _ hi _; simp at hi
  | cons r rest ih =>
    intro i a hlen hi ha
    have hr : r.length = A := hlen r (List.mem_cons_self r rest)
    cases i with
    | zero =>
      simp only [List.flatten_cons, Nat.zero_mul, Nat.zero_add, List.getD_cons_zero]
      exact List.getD_append r rest.flatten 0 a (by omega)
    | succ n =>
      simp only [List.flatten_cons, List.getD_cons_succ]
      have hidx : (n + 1) * A + a = r.length + (n * A + a) := by rw [hr]; ring
      rw [hidx, List.getD_append_right r rest.flatten 0 _ (by omega), Nat.add_sub_cancel_left]
      exact ih n a (fun q hq => hlen q (List.mem_cons_of_mem r hq)) (by simpa using hi) ha

theorem sum_zipWith_replicate_zero :
    ∀ (xs : List ℚ) (m : ℕ), (List.zipWith (fun a b => a * b) xs (List.replicate m 0)).sum = 0 := by
  intro xs
  induction xs with
  | nil => intro m; simp
  | cons x xs ih =>
    intro m
    cases m with
    | zero => simp
    | succ m =>
      simp only [List.replicate_succ, List.zipWith_cons_cons, List.sum_cons, ih m]
      ring

theorem sum_zipWith_oneHot :
    ∀ (row : List ℚ) (n k : ℕ), row.length = n → k < n →
      (List.zipWith (fun a b => a * b) row (oneHot n k)).sum = row.getD k 0 := by
  intro row
  induction row with
  | nil => intro n k hlen hk; simp at hlen; omega
  | cons r rest ih =>
    intro n k hlen hk
    cases n with
    | zero => omega
    | succ m =>
      cases k with
      | zero =>
        simp only [oneHot, List.zipWith_cons_cons, List.sum_cons, List.getD_cons_zero,
          sum_zipWith_replicate_zero rest m]
        ring
      | succ j =>
        simp only [oneHot, List.zipWith_cons_cons, List.sum_cons, List.getD_cons_succ]
        rw [ih m j (by simpa using hlen) (by omega)]
        ring

theorem compute_q_value_getD (n : ℕ) :
    ∀ (qs : List (List ℚ)) (acts : List ℕ) (i : ℕ), (∀ r ∈ qs, r.length = n) →
      acts.length = qs.length → i < qs.length →
      (compute_q_value qs (acts.map (oneHot n))).getD i 0
        = (List.zipWith (fun a b => a * b) (qs.getD i []) (oneHot n (acts.getD i 0))).sum := by
  intro qs
  induction qs with
  | nil => intro acts i _ _ hi; simp at hi
  | cons q qs ih =>
    intro acts i hrows hlen hi
    cases acts with
    | nil => simp at hlen
    | cons a acts =>
      cases i with
      | zero =>
        simp only [compute_q_value, List.map_cons, List.zip_cons_cons, List.getD_cons_zero]
      | succ j =>
        simp only [compute_q_value, List.map_cons, List.zip_cons_cons, List.getD_cons_succ]
        exact ih acts j (fun r hr => hrows r (List.mem_cons_of_mem q hr))
          (by simpa using hlen) (by simpa using hi)

theorem foldl_initLoopStep (l : List Bool) : ∀ g : ℕ, l.foldl initLoopStep g = g + l.length := by
  induction l with
  | nil => intro g; simp
  | cons d t ih =>
    intro g
    simp only [List.foldl_cons, initLoopStep, ih, List.length_cons]
    omega

theorem foldl_mainLoopStep (l : List Bool) :
    ∀ g : ℕ, l.foldl mainLoopStep g = g + l.count false := by
  induction l with
  | nil => intro g; simp
  | cons d t ih =>
    intro g
    cases d
    · simp only [List.foldl_cons, mainLoopStep, if_neg (by simp : ¬False), ih,
        List.count_cons]
      simp
      omega
    · simp only [List.foldl_cons, mainLoopStep, ih, List.count_cons]
      simp

/-! ## Claim theorems -/

/-- C1: for every sampled transition, the TD target computed by `train.py`
lines 167-168 equals
`reward + discount_factor * (1 - done) * max_a TargetEstimator.predict(next_state)[a]`,
and for a transition with `done = true` it equals the reward exactly,
independent of the target network's output on the next state. -/
theorem C1_td_target_formula (discount_factor reward : ℚ) (done : Bool)
    (next_q_values : List ℚ) :
    t_values discount_factor reward done next_q_values
      = td_target_spec discount_factor reward done next_q_values
    ∧ t_values discount_factor reward true next_q_values = reward := by
  constructor
  · unfold t_values td_target_spec
    ring
  · simp [t_values, floatOfDone]

/-- C2 (amended): after `sync_from` the target parameters are a copy of the
online parameters (`syncTrigger` firing exactly at multiples of
`update_target_estimator_every`), so any probe output computed from the two
parameter sets is identical; a subsequent gradient update leaves the target
parameters unchanged, so the two outputs differ whenever the update changed
the online network's output on the probe — a zero-gradient update can leave
them equal, which is what the unamended claim misses. -/
theorem C2_target_sync_amended (e : DualNet) (lr : ℚ) (g : List ℚ)
    (predict : List ℚ → ℚ) (update_every global_step : ℕ) :
    (syncTrigger global_step update_every = true ↔ update_every ∣ global_step)
    ∧ (sync_from e).tParams = (sync_from e).qParams
    ∧ predict (sync_from e).tParams = predict (sync_from e).qParams
    ∧ (gradUpdate lr g (sync_from e)).tParams = (sync_from e).tParams
    ∧ (predict (gradUpdate lr g (sync_from e)).qParams ≠ predict (sync_from e).qParams →
        predict (gradUpdate lr g (sync_from e)).qParams
          ≠ predict (gradUpdate lr g (sync_from e)).tParams) := by
  refine ⟨?_, rfl, rfl, rfl, ?_⟩
  · simp [syncTrigger, Nat.dvd_iff_mod_eq_zero]
  · intro hne
    exact hne

/-- C2 counterexample: a gradient update with an all-zero gradient (as an
optimizer step produces when the loss gradient vanishes) leaves the online
parameters unchanged, so after sync-then-update the two networks' outputs
on the probe are equal — the unamended claim asserts they must differ. -/
theorem C2_zero_gradient_counterexample :
    (fun p : List ℚ => p.headD 0) (gradUpdate 1 [0] (sync_from ⟨[1], [0]⟩)).qParams
      = (fun p : List ℚ => p.headD 0) (gradUpdate 1 [0] (sync_from ⟨[1], [0]⟩)).tParams := by
  norm_num [gradUpdate, sync_from]

/-- C2 witness: the amended theorem applied at a concrete dual network,
learning rate, gradient and probe. -/
theorem C2_target_sync_witness :
    (sync_from ⟨[1], [0]⟩).tParams = (sync_from ⟨[1], [0]⟩).qParams :=
  (C2_target_sync_amended ⟨[1], [0]⟩ 1 [1] (fun p => p.headD 0) 2 4).2.1

/-- C3: the dueling forward pass combines the value and advantage heads as
`Q(s,a) = V(s) + (A(s,a) - mean_a A(s,a))` (`model_dd_dqn.py` line 127), so
for a fixed state the difference of any two action values equals the
difference of the corresponding advantages — the V term cancels. -/
theorem C3_dueling_v_cancels (value : ℚ) (advantage : List ℚ) (i j : ℕ)
    (hi : i < advantage.length) (hj : j < advantage.length) :
    (dddqn_forward value advantage).length = advantage.length
    ∧ (dddqn_forward value advantage).getD i 0 - (dddqn_forward value advantage).getD j 0
        = advantage.getD i 0 - advantage.getD j 0 := by
  have hlen : (dddqn_forward value advantage).length = advantage.length := by
    simp [dddqn_forward]
  refine ⟨hlen, ?_⟩
  rw [List.getD_eq_getElem _ _ (by omega), List.getD_eq_getElem _ _ (by omega),
    List.getD_eq_getElem _ _ hi, List.getD_eq_getElem _ _ hj]
  simp only [dddqn_forward, List.getElem_map]
  ring

/-- C3 witness: the cancellation at a concrete state (value 7,
advantages 1 and 4). -/
theorem C3_dueling_v_cancels_witness :
    (dddqn_forward 7 [1, 4]).getD 0 0 - (dddqn_forward 7 [1, 4]).getD 1 0
      = ([1, 4] : List ℚ).getD 0 0 - ([1, 4] : List ℚ).getD 1 0 :=
  (C3_dueling_v_cancels 7 [1, 4] 0 1 (by decide) (by decide)).2

/-- C4: the schedule of `model_dd_dqn.py` line 18 satisfies everything the
claim states — `eps_threshold(0) = eps_start`, monotone non-increasing,
bounded in `[eps_end, eps_start]` — but the DQN training loop
(`train.py` line 119) passes the raw global step counter as the epsilon
argument of its policy, so the epsilon value actually used there at step 5
is 5, not the schedule value (which never exceeds `eps_start`). -/
theorem C4_epsilon_schedule_bug (eps_end eps_start eps_decay : ℝ)
    (hes : eps_end ≤ eps_start) (hd : 0 ≤ eps_decay) :
    eps_threshold eps_end eps_start eps_decay 0 = eps_start
    ∧ (∀ s1 s2 : ℕ, s1 ≤ s2 →
        eps_threshold eps_end eps_start eps_decay s2
          ≤ eps_threshold eps_end eps_start eps_decay s1)
    ∧ (∀ s : ℕ, eps_end ≤ eps_threshold eps_end eps_start eps_decay s
        ∧ eps_threshold eps_end eps_start eps_decay s ≤ eps_start)
    ∧ dqn_epsilon_used 5 = 5 := by
  refine ⟨?_, ?_, ?_, ?_⟩
  · unfold eps_threshold
    norm_num
  · intro s1 s2 h
    unfold eps_threshold
    have hc : (s1 : ℝ) ≤ (s2 : ℝ) := Nat.cast_le.mpr h
    have hexp : Real.exp (-1 * (s2 : ℝ) * eps_decay) ≤ Real.exp (-1 * (s1 : ℝ) * eps_decay) := by
      apply Real.exp_le_exp.mpr
      nlinarith
    have := mul_le_mul_of_nonneg_left hexp (sub_nonneg.mpr hes)
    linarith
  · intro s
    unfold eps_threshold
    have hpos : 0 < Real.exp (-1 * (s : ℝ) * eps_decay) := Real.exp_pos _
    have hone : Real.exp (-1 * (s : ℝ) * eps_decay) ≤ 1 := by
      apply Real.exp_le_one_iff.mpr
      have : (0 : ℝ) ≤ (s : ℝ) := Nat.cast_nonneg s
      nlinarith
    constructor
    · nlinarith
    · nlinarith
  · norm_num [dqn_epsilon_used]

/-- C4 witness: the schedule theorem applied at concrete parameters
(`eps_end = 0`, `eps_start = 1`, `eps_decay = 0`). -/
theorem C4_epsilon_schedule_witness :
    eps_threshold 0 1 0 0 = 1 ∧ dqn_epsilon_used 5 = 5 :=
  ⟨(C4_epsilon_schedule_bug 0 1 0 zero_le_one (le_refl 0)).1,
   (C4_epsilon_schedule_bug 0 1 0 zero_le_one (le_refl 0)).2.2.2⟩

/-- C5: the dueling variant's epsilon-greedy policy
(`model_dd_dqn.py` lines 16-27) returns the drawn random action when the
uniform sample is at most the epsilon threshold, otherwise the argmax of the
predicted action values (which indeed attains the maximum), and in both
branches the returned action id lies in the legal set
`{0, ..., nActions - 1}`. -/
theorem C5_epsilon_greedy_action (sample eps_thr : ℚ) (q_values : List ℚ)
    (nActions randAction : ℕ) (hlen : q_values.length = nActions) (hn : 0 < nActions)
    (hrand : randAction < nActions) :
    (sample ≤ eps_thr → dd_policy_action sample eps_thr q_values randAction = randAction)
    ∧ (eps_thr < sample →
        dd_policy_action sample eps_thr q_values randAction = argmaxIdx q_values
        ∧ q_values.getD (argmaxIdx q_values) 0 = listMax q_values)
    ∧ dd_policy_action sample eps_thr q_values randAction < nActions := by
  have hne : q_values ≠ [] := by
    intro hnil
    rw [hnil] at hlen
    simp at hlen
    omega
  refine ⟨?_, ?_, ?_⟩
  · intro h
    simp [dd_policy_action, not_lt.mpr h]
  · intro h
    exact ⟨by simp [dd_policy_action, h], getD_argmaxIdx _ hne⟩
  · by_cases h : eps_thr < sample
    · simp only [dd_policy_action, if_pos h]
      have := argmaxIdx_lt_length q_values hne
      omega
    · simpa [dd_policy_action, h] using hrand

/-- C5 witness: a concrete greedy decision (sample 1/2 above threshold 1/4,
values [1, 3], two legal actions, random draw 1). -/
theorem C5_epsilon_greedy_action_witness :
    dd_policy_action (1/2) (1/4) [1, 3] 1 < 2 :=
  (C5_epsilon_greedy_action (1/2) (1/4) [1, 3] 2 1 (by decide) (by decide) (by decide)).2.2

/-- C6 (code bug): the gather-by-index semantics the claim states is only
half real. The dueling variant (`model_dd_dqn.py` lines 131-140) does
gather `value_batch[i, action_batch[i]]` through the row-wise
product-and-sum with one-hot action rows, and the flattened-index gather
that `model_dqn.py` lines 98-99 spell out likewise has the claimed
semantics; but the DQN method itself resolves the unbound name `i_type`
(lines 96 and 98) before producing anything, so every call of
`compute_action_pred` raises `NameError` instead of returning the gathered
values. -/
theorem C6_select_action_value_bug (action_space : ℕ) :
    (∀ (pred : List (List ℚ)) (actions : List ℕ),
        compute_action_pred action_space pred actions = Except.error NameError.i_type)
    ∧ (∀ (pred : List (List ℚ)) (actions : List ℕ) (i : ℕ),
        (∀ r ∈ pred, r.length = action_space) → i < pred.length →
        actions.getD i 0 < action_space →
        (compute_action_pred_gather action_space pred actions).getD i 0
          = (pred.getD i []).getD (actions.getD i 0) 0)
    ∧ (∀ (q_values : List (List ℚ)) (act_ids : List ℕ) (i : ℕ),
        (∀ r ∈ q_values, r.length = action_space) → act_ids.length = q_values.length →
        i < q_values.length → act_ids.getD i 0 < action_space →
        (compute_q_value q_values (act_ids.map (oneHot action_space))).getD i 0
          = (q_values.getD i []).getD (act_ids.getD i 0) 0) := by
  refine ⟨?_, ?_, ?_⟩
  · intro pred actions
    rfl
  · intro pred actions i hrows hi ha
    unfold compute_action_pred_gather
    rw [List.getD_eq_getElem _ _ (by simpa using hi)]
    simp only [List.getElem_map, List.getElem_range]
    exact flatten_getD action_space pred i _ hrows hi ha
  · intro q_values act_ids i hrows hlen hi ha
    rw [compute_q_value_getD action_space q_values act_ids i hrows hlen hi]
    have hmem : q_values.getD i [] ∈ q_values := by
      rw [List.getD_eq_getElem _ _ hi]
      exact List.getElem_mem hi
    exact sum_zipWith_oneHot _ action_space _ (hrows _ hmem) ha

/-- C6 witness: on the concrete batch `[[1, 2], [3, 4]]` with chosen
actions `[1, 0]`, the DQN method evaluates to the `NameError`, while the
intended flattened-index gather and the dueling gather both return the
value of the chosen action. -/
theorem C6_select_action_value_bug_witness :
    compute_action_pred 2 [[1, 2], [3, 4]] [1, 0] = Except.error NameError.i_type
    ∧ (compute_action_pred_gather 2 [[1, 2], [3, 4]] [1, 0]).getD 0 0
        = (([[1, 2], [3, 4]] : List (List ℚ)).getD 0 []).getD 1 0
    ∧ (compute_q_value [[1, 2], [3, 4]] ([1, 0].map (oneHot 2))).getD 1 0
        = (([[1, 2], [3, 4]] : List (List ℚ)).getD 1 []).getD 0 0 :=
  ⟨(C6_select_action_value_bug 2).1 [[1, 2], [3, 4]] [1, 0],
   (C6_select_action_value_bug 2).2.1 [[1, 2], [3, 4]] [1, 0] 0
      (by intro r hr; simp at hr; rcases hr with h | h <;> simp [h]) (by decide) (by decide),
   (C6_select_action_value_bug 2).2.2 [[1, 2], [3, 4]] [1, 0] 1
      (by intro r hr; simp at hr; rcases hr with h | h <;> simp [h]) (by decide) (by decide)
      (by decide)⟩

/-- C7: the stacked-frame window holds exactly 4 frames at all reachable
states of the training loop: episode starts fill it with four copies of the
first preprocessed frame (`train.py` lines 109-111), and appending a new
frame (`train.py` lines 120-122) drops exactly the oldest frame, keeps the
remaining frames in temporal order, puts the new frame last, and preserves
the length, so reachability is closed under appending. -/
theorem C7_stacked_frames_invariant {F : Type} (dflt frame : F) (s : List F)
    (h : StackReachable s) :
    s.length = 4
    ∧ (∀ g : F, initStack g = [g, g, g, g])
    ∧ (appendFrame s frame).length = 4
    ∧ StackReachable (appendFrame s frame)
    ∧ (∀ k : ℕ, k < 3 → (appendFrame s frame).getD k dflt = s.getD (k + 1) dflt)
    ∧ (appendFrame s frame).getD 3 dflt = frame := by
  have hlen : ∀ t : List F, StackReachable t → t.length = 4 := by
    intro t ht
    induction ht with
    | init f => rfl
    | step f _ ih =>
      simp only [appendFrame, List.length_append, List.length_drop, List.length_cons,
        List.length_nil]
      omega
  have h4 : s.length = 4 := hlen s h
  have hd1 : (s.drop 1).length = 3 := by
    simp [h4]
  refine ⟨h4, fun g => rfl, ?_, StackReachable.step frame h, ?_, ?_⟩
  · simp only [appendFrame, List.length_append, List.length_drop, List.length_cons,
      List.length_nil]
    omega
  · intro k hk
    rw [appendFrame, List.getD_append _ _ _ _ (by omega),
      List.getD_eq_getElem _ _ (by omega), List.getD_eq_getElem _ _ (by omega),
      List.getElem_drop]
    congr 1
    omega
  · rw [appendFrame, List.getD_append_right _ _ _ _ (by omega), hd1]
    rfl

/-- C7 witness: the invariant read off at the initial window of a concrete
first frame. -/
theorem C7_stacked_frames_witness : (initStack (7 : ℕ)).length = 4 :=
  (C7_stacked_frames_invariant 0 9 (initStack 7) (StackReachable.init 7)).1

/-- C8 (amended): the global step counter starts at 0 and never decreases;
the replay-memory initialization loop increments it on every environment
interaction, terminal ones included (`train.py` line 95), but the episode
loop breaks on `done` before the increment (`train.py` lines 189-193), so
after the run the counter equals the number of initialization interactions
plus the number of non-terminal episode-loop interactions — not the total
number of interactions. -/
theorem C8_global_step_amended (initDones mainDones : List Bool) :
    globalStepAfter [] [] = 0
    ∧ globalStepAfter initDones mainDones = initDones.length + mainDones.count false
    ∧ (∀ g : ℕ, ∀ d : Bool, initLoopStep g d = g + 1)
    ∧ (∀ g : ℕ, ∀ d : Bool, g ≤ initLoopStep g d ∧ g ≤ mainLoopStep g d) := by
  refine ⟨rfl, ?_, fun g d => rfl, ?_⟩
  · unfold globalStepAfter
    rw [foldl_initLoopStep, foldl_mainLoopStep]
    omega
  · intro g d
    refine ⟨Nat.le_succ g, ?_⟩
    cases d
    · simp [mainLoopStep]
    · simp [mainLoopStep]

/-- C8 counterexample: one episode-loop interaction that terminates the
episode (`done = true`) leaves the counter at 0, while the claim says that
after 1 environment interaction the counter equals 1. -/
theorem C8_terminal_step_counterexample :
    globalStepAfter [] [true] = 0 ∧ globalStepAfter [] [true] ≠ 1 := by
  decide

/-- C9 (amended): the experience buffer's `sample` (modelled from the spec,
its implementation lives outside the sources) fails with
`InsufficientDataError` whenever the current size is below the requested
batch size; the training loop of `train.py` calls it at line 162 with no
exception handler, so in the update phase the failure propagates out of the
iteration (training aborts) instead of being skipped, while a sufficiently
filled buffer always yields a successful update phase. -/
theorem C9_insufficient_data_amended (buf : List Transition) (picks : List ℕ)
    (batch_size : ℕ) (discount_factor : ℚ) (nextQ : List ℚ → List ℚ)
    (h : buf.length < batch_size) :
    bufferSample buf picks batch_size = Except.error ()
    ∧ updatePhase buf picks batch_size discount_factor nextQ = Except.error ()
    ∧ (∀ buf2 : List Transition, batch_size ≤ buf2.length →
        (updatePhase buf2 picks batch_size discount_factor nextQ).isOk = true) := by
  have hs : bufferSample buf picks batch_size = Except.error () := by
    simp [bufferSample, if_pos h]
  refine ⟨hs, ?_, ?_⟩
  · simp [updatePhase, hs]
  · intro buf2 h2
    simp [updatePhase, bufferSample, not_lt.mpr h2, Except.isOk, Except.toBool]

/-- C9 counterexample: on an empty buffer with batch size 1, the update
phase of a loop iteration evaluates to the propagated error — the iteration
aborts with the sampling failure rather than skipping the update and
continuing. -/
theorem C9_unhandled_error_counterexample :
    updatePhase [] [] 1 (95/100) (fun _ => []) = Except.error () := rfl

/-- C9 witness: the amended theorem applied to the empty buffer and batch
size 1. -/
theorem C9_insufficient_data_witness :
    bufferSample [] [] 1 = Except.error () :=
  (C9_insufficient_data_amended [] [] 1 (95/100) (fun _ => []) (by decide)).1

/-- C10: the probability vector built by the DQN epsilon-greedy policy
(`model_dqn.py` lines 16-21) has length `action_space`, assigns
`epsilon / action_space` to every non-argmax action and additionally
`1 - epsilon` to the argmax action, and sums exactly to 1. -/
theorem C10_action_probabilities (action_space : ℕ) (epsilon : ℚ) (q_values : List ℚ)
    (hn : 0 < action_space) (hq : q_values.length = action_space) :
    (dqn_policy_probs action_space epsilon q_values).length = action_space
    ∧ (dqn_policy_probs action_space epsilon q_values).sum = 1
    ∧ (dqn_policy_probs action_space epsilon q_values).getD (argmaxIdx q_values) 0
        = epsilon / action_space + (1 - epsilon)
    ∧ (∀ i : ℕ, i < action_space → i ≠ argmaxIdx q_values →
        (dqn_policy_probs action_space epsilon q_values).getD i 0
          = epsilon / action_space) := by
  have hne : q_values ≠ [] := by
    intro hnil
    rw [hnil] at hq
    simp at hq
    omega
  have hb : argmaxIdx q_values < action_space := hq ▸ argmaxIdx_lt_length q_values hne
  have hcast : (action_space : ℚ) ≠ 0 := Nat.cast_ne_zero.mpr (by omega)
  refine ⟨by simp [dqn_policy_probs], ?_, ?_, ?_⟩
  · unfold dqn_policy_probs
    rw [sum_set_rat _ _ _ (by simpa using hb), getD_replicate_rat _ action_space _ hb,
      List.sum_replicate, nsmul_eq_mul, mul_comm ((action_space : ℚ)),
      div_mul_cancel₀ epsilon hcast]
    ring
  · unfold dqn_policy_probs
    rw [List.getD_eq_getElem _ _ (by simpa using hb)]
    simp
  · intro i hi hne2
    unfold dqn_policy_probs
    rw [List.getD_eq_getElem _ _ (by simpa using hi)]
    rw [List.getElem_set_ne (fun heq => hne2 heq.symm)]
    simp

/-- C10 witness: the probability vector at epsilon 1/3 over two actions with
values [1, 4] sums to 1. -/
theorem C10_action_probabilities_witness :
    (dqn_policy_probs 2 (1/3) [1, 4]).sum = 1 :=
  (C10_action_probabilities 2 (1/3) [1, 4] (by decide) (by decide)).2.1
